import Mathlib

/-!
Verification development for the learnable.ai client-side processing core.

The definitions below are a shallow embedding, translated from the
TypeScript sources of the repository:
  - frontend/src/lib/constants.ts        (allow-lists, limits, messages)
  - frontend/src/lib/types.ts            (data model records)
  - frontend/src/hooks/useFileUpload.ts  (validateFile)
  - frontend/src/components/ResultsSection.tsx (quiz sub-state machine)
  - frontend/src/hooks/useProcessing.ts  (two divergent orchestrator
    implementations: a replace-based one under frontend/src/hooks and the
    merge-based duplicates in the unnamed parts)
  - frontend/src/lib/api.ts              (ApiClient transport behaviour)
  - frontend/src/utils/mindmapToMermaid.ts (Mermaid generators)

JavaScript-isms (truthiness, `||` on strings, `Array.prototype.find`,
`String.prototype.split/trim/substring`) are modelled explicitly so that
each Lean definition can be diffed line by line against its source.
-/

namespace Learnable

/-! ## JavaScript string semantics -/

/-- Character class of the JavaScript regexp `\s` (also the set removed by
`String.prototype.trim`). -/
def isJsSpace (c : Char) : Bool :=
  c = ' ' || c = '\t' || c = '\n' || c = '\r' || c = '\x0b' || c = '\x0c' ||
  c = '\u00A0' || c = '\u1680' || ('\u2000' ≤ c && c ≤ '\u200A') ||
  c = '\u2028' || c = '\u2029' || c = '\u202F' || c = '\u205F' ||
  c = '\u3000' || c = '\uFEFF'

/-- JavaScript `String.prototype.trim` on a character list. -/
def jsTrimList (l : List Char) : List Char :=
  ((l.dropWhile isJsSpace).reverse.dropWhile isJsSpace).reverse

/-- JavaScript `String.prototype.trim`. -/
def jsTrim (s : String) : String := ⟨jsTrimList s.data⟩

/-- JavaScript `String.prototype.toLowerCase` (ASCII fragment, which covers
every extension string compared against the allow-lists). -/
def jsToLower (s : String) : String := ⟨s.data.map Char.toLower⟩

/-- Truthiness of a JavaScript `string | undefined` value: `undefined` and
the empty string are falsy. -/
def truthyStr : Option String → Bool
  | none => false
  | some s => s ≠ ""

/-- JavaScript `a || b` on `string | undefined` values. -/
def jsOrStr (a b : Option String) : Option String :=
  if truthyStr a then a else b

/-! ## constants.ts -/

/-- API_CONFIG.MAX_FILE_SIZE (50MB). -/
def MAX_FILE_SIZE : Nat := 50 * 1024 * 1024

/-- API_CONFIG.TIMEOUT, documented as 5 minutes for large file uploads. -/
def API_CONFIG_TIMEOUT : Nat := 300000

/-- SUPPORTED_FILE_TYPES.DOCUMENTS. -/
def SUPPORTED_DOCUMENTS : List String := [".pdf", ".docx", ".doc"]

/-- SUPPORTED_FILE_TYPES.AUDIO. -/
def SUPPORTED_AUDIO : List String := [".mp3", ".wav", ".m4a", ".flac", ".aac", ".ogg"]

/-- SUPPORTED_FILE_TYPES.VIDEO. -/
def SUPPORTED_VIDEO : List String :=
  [".mp4", ".avi", ".mov", ".mkv", ".wmv", ".flv", ".webm", ".m4v"]

/-- SUPPORTED_FILE_TYPES.ALL, written out literally as in constants.ts. -/
def SUPPORTED_ALL : List String :=
  [".pdf", ".docx", ".doc", ".mp3", ".wav", ".m4a", ".flac", ".aac", ".ogg",
   ".mp4", ".avi", ".mov", ".mkv", ".wmv", ".flv", ".webm", ".m4v"]

/-- ERROR_MESSAGES.FILE_TOO_LARGE. -/
def ERR_FILE_TOO_LARGE : String := "File size exceeds the maximum limit of 50MB"

/-- ERROR_MESSAGES.UNSUPPORTED_FILE_TYPE. -/
def ERR_UNSUPPORTED_FILE_TYPE : String := "This file type is not supported"

/-- ERROR_MESSAGES.API_KEY_MISSING. -/
def ERR_API_KEY_MISSING : String := "API key is required. Please configure it in Settings."

/-! ## File validator (useFileUpload.ts, validateFile) -/

/-- Browser `File` object, restricted to the fields the validator reads. -/
structure JsFile where
  name : String
  size : Nat
deriving DecidableEq

/-- Splitting loop of JavaScript `String.prototype.split('.')`. -/
def splitDotAux : List Char → List Char → List (List Char)
  | [], acc => [acc.reverse]
  | c :: cs, acc =>
      if c = '.' then acc.reverse :: splitDotAux cs []
      else splitDotAux cs (c :: acc)

/-- JavaScript `name.split('.')`: the list of dot-separated segments,
never empty (the empty string splits to `[""]`). -/
def jsSplitDot (name : String) : List String :=
  (splitDotAux name.data []).map (fun l => ⟨l⟩)

/-- Extension computed by validateFile:
`'.' + file.name.split('.').pop()?.toLowerCase()`.  `split('.')` always
returns a non-empty array, so `pop` never yields `undefined`. -/
def fileExtensionOf (name : String) : String :=
  "." ++ jsToLower ((jsSplitDot name).getLastD "")

/-- FileValidationResult from types.ts. -/
structure FileValidationResult where
  isValid : Bool
  error : Option String
deriving DecidableEq

/-- validateFile from useFileUpload.ts (identical in both duplicated
copies of the hook): unsupported extension is checked first, then the
size limit; a pure function that never throws. -/
def validateFile (f : JsFile) : FileValidationResult :=
  let extension := fileExtensionOf f.name
  if !(SUPPORTED_ALL.contains extension) then
    { isValid := false, error := some ERR_UNSUPPORTED_FILE_TYPE }
  else if f.size > MAX_FILE_SIZE then
    { isValid := false, error := some ERR_FILE_TOO_LARGE }
  else
    { isValid := true, error := none }

/-- Modelled from the spec: the extension of a file name in the claim's
sense, namely the dot plus the (case-insensitively compared) segment after
the last dot, and no extension at all when the name contains no dot.  This
is the spec-side notion used to compare the validator against claim C4. -/
def specExtension (name : String) : Option String :=
  match jsSplitDot name with
  | [] => none
  | [_] => none
  | parts => some ("." ++ jsToLower (parts.getLastD ""))

/-- Acceptance predicate as worded by claim C4: the file's extension
(case-insensitive) belongs to the allow-list and the size is at most
50 MB. -/
def claimAccepts (f : JsFile) : Bool :=
  (match specExtension f.name with
   | some e => SUPPORTED_ALL.contains e
   | none => false) && decide (f.size ≤ MAX_FILE_SIZE)

/-! ## Quiz-taking sub-state machine (ResultsSection.tsx) -/

/-- MCQQuestion from types.ts. -/
structure MCQQuestion where
  question : String
  options : List String
  correct_answer : String
  explanation : String
deriving DecidableEq

instance : Inhabited MCQQuestion := ⟨⟨"", [], "", ""⟩⟩

/-- QuizState local to ResultsSection.tsx. -/
structure QuizState where
  currentQuestion : Nat
  userAnswers : List (Option String)
  showResults : Bool
  score : Nat
deriving DecidableEq

/-- Scoring loop of handleFinishQuiz:
`results.quiz.quiz.forEach((question, index) => { if
(quizState.userAnswers[index] === question.correct_answer) score++; })`.
An out-of-range read yields `undefined`, which is never `===` a string;
this is modelled by the default `none`. -/
def quizScoreLoop : List MCQQuestion → Nat → List (Option String) → Nat
  | [], _, _ => 0
  | q :: qs, i, ans =>
      (if ans.getD i none = some q.correct_answer then 1 else 0) +
        quizScoreLoop qs (i + 1) ans

/-- handleFinishQuiz from ResultsSection.tsx: computes the score and flips
showResults, leaving the other fields to the spread of the previous
state. -/
def handleFinishQuiz (quiz : List MCQQuestion) (s : QuizState) : QuizState :=
  { s with showResults := true, score := quizScoreLoop quiz 0 s.userAnswers }

/-- handleRestartQuiz from ResultsSection.tsx. -/
def handleRestartQuiz (quiz : List MCQQuestion) (_s : QuizState) : QuizState :=
  { currentQuestion := 0
    userAnswers := List.replicate quiz.length none
    showResults := false
    score := 0 }

/-! ## Data model (types.ts) -/

/-- SummarizeTextOutput from types.ts. -/
structure SummarizeTextOutput where
  success : Bool
  original_text : String
  summary : String
  word_count_original : Nat
  word_count_summary : Nat
  content_type : Option String
deriving DecidableEq

/-- MindmapNode from types.ts: recursive `{ name, children?: MindmapNode[] }`.
A missing `children` array and an empty one behave identically at every
use site, so both are modelled by the empty list. -/
inductive MindmapNode where
  | mk (name : String) (children : List MindmapNode)

/-- Accessor matching `node.name`. -/
def MindmapNode.name : MindmapNode → String
  | .mk n _ => n

/-- Accessor matching `node.children`. -/
def MindmapNode.children : MindmapNode → List MindmapNode
  | .mk _ cs => cs

/-- MindmapOutput from types.ts. -/
structure MindmapOutput where
  success : Bool
  topic : String
  mindmap : MindmapNode
  content_type : Option String

/-- MCQQuizOutput from types.ts. -/
structure MCQQuizOutput where
  success : Bool
  content : String
  num_questions : Nat
  quiz : List MCQQuestion
  content_type : Option String
deriving DecidableEq

/-- Flashcard from types.ts. -/
structure Flashcard where
  front : String
  back : String
  category : String
  difficulty : String
deriving DecidableEq

/-- FlashcardOutput from types.ts. -/
structure FlashcardOutput where
  success : Bool
  content : String
  flashcards : List Flashcard
  total_cards : Nat
  content_type : Option String
deriving DecidableEq

/-- UploadStatus component of UploadedFile. -/
inductive UploadStatus where
  | pending | uploading | success | error
deriving DecidableEq

/-- UploadedFile from types.ts. -/
structure UploadedFile where
  file : JsFile
  id : String
  name : String
  size : Nat
  type : String
  extension : String
  uploadProgress : Nat
  status : UploadStatus
  error : Option String
deriving DecidableEq

/-- ProcessingResults from types.ts: the results accumulator with one
optional slot per artifact type plus the shared content-type tag. -/
structure ProcessingResults where
  summary : Option SummarizeTextOutput
  mindmap : Option MindmapOutput
  quiz : Option MCQQuizOutput
  flashcards : Option FlashcardOutput
  content_type : Option String
  original_file : Option UploadedFile

/-- Spread base for `{...prev}` when `prev` is `null`: the empty object. -/
def emptyResults : ProcessingResults :=
  { summary := none, mindmap := none, quiz := none, flashcards := none
    content_type := none, original_file := none }

/-- ProcessingState union from types.ts / PROCESSING_STATES in constants.ts. -/
inductive ProcessingState where
  | idle | uploading | processing | success | error
deriving DecidableEq

/-- ProcessingStatus from types.ts. -/
structure ProcessingStatus where
  state : ProcessingState
  progress : Nat
  message : String
  error : Option String
deriving DecidableEq

/-! ## Processing orchestrator (useProcessing.ts, both variants) -/

/-- Combined local state of a useProcessing instance: the status singleton
and the results accumulator (`null` initially). -/
structure OrchState where
  status : ProcessingStatus
  results : Option ProcessingResults

/-- Initial state of the hook:
`{ state: PROCESSING_STATES.IDLE, progress: 0, message: '' }` and
`useState<ProcessingResults | null>(null)`. -/
def initialOrchState : OrchState :=
  { status := { state := .idle, progress := 0, message := "", error := none }
    results := none }

/-- updateStatus from useProcessing.ts (identical in every copy): state is
always replaced, progress and message fall back to the previous value when
omitted, and the error field is always overwritten with the argument
(`undefined` when omitted). -/
def updateStatus (prev : ProcessingStatus) (state : ProcessingState)
    (progress : Option Nat) (message : Option String) (error : Option String) :
    ProcessingStatus :=
  { state := state
    progress := progress.getD prev.progress
    message := message.getD prev.message
    error := error }

/-- resetProcessing: status back to idle with empty message, results
cleared to `null`. -/
def resetProcessing (_s : OrchState) : OrchState :=
  { status := { state := .idle, progress := 0, message := "", error := none }
    results := none }

/-- cancelProcessing (merge-based hook only):
`updateStatus(PROCESSING_STATES.IDLE, 0, 'Processing cancelled')`; the
results accumulator is not touched. -/
def cancelProcessing (s : OrchState) : OrchState :=
  { s with status := updateStatus s.status .idle (some 0) (some "Processing cancelled") none }

/-! ### onSuccess handlers of the merge-based orchestrator (unnamed
useProcessing copy, "P3"): `setResults(prev => ({...prev, slot: data, ...}))` -/

/-- summarizeMultimediaMutation.onSuccess (merge-based copy). -/
def summarizeOnSuccessP3 (d : SummarizeTextOutput) (prev : Option ProcessingResults) :
    ProcessingResults :=
  { prev.getD emptyResults with summary := some d, content_type := d.content_type }

/-- generateMindmapMutation.onSuccess (merge-based copy):
`content_type: prev?.content_type || data.content_type`. -/
def mindmapOnSuccessP3 (d : MindmapOutput) (prev : Option ProcessingResults) :
    ProcessingResults :=
  { prev.getD emptyResults with
      mindmap := some d
      content_type := jsOrStr (prev.bind (fun r => r.content_type)) d.content_type }

/-- generateQuizMutation.onSuccess (merge-based copy). -/
def quizOnSuccessP3 (d : MCQQuizOutput) (prev : Option ProcessingResults) :
    ProcessingResults :=
  { prev.getD emptyResults with
      quiz := some d
      content_type := jsOrStr (prev.bind (fun r => r.content_type)) d.content_type }

/-- generateFlashcardsMutation.onSuccess (merge-based copy). -/
def flashcardsOnSuccessP3 (d : FlashcardOutput) (prev : Option ProcessingResults) :
    ProcessingResults :=
  { prev.getD emptyResults with
      flashcards := some d
      content_type := jsOrStr (prev.bind (fun r => r.content_type)) d.content_type }

/-- processMultimediaMutation.onSuccess (merge-based copy): all four slots
are written, `content_type: data.summary.content_type`,
`original_file: uploadedFiles[0] || undefined`. -/
def processAllOnSuccessP3
    (d : SummarizeTextOutput × MindmapOutput × MCQQuizOutput × FlashcardOutput)
    (uploadedFiles : List UploadedFile) (prev : Option ProcessingResults) :
    ProcessingResults :=
  { prev.getD emptyResults with
      summary := some d.1
      mindmap := some d.2.1
      quiz := some d.2.2.1
      flashcards := some d.2.2.2
      content_type := d.1.content_type
      original_file := uploadedFiles.head? }

/-! ### onSuccess handlers of the replace-based orchestrator
(frontend/src/hooks/useProcessing.ts, "FE"):
`setResults({ id: ..., type: ..., data: ..., createdAt: ..., status: ...,
slot: data })` — a fresh object literal without `...prev`.  The untyped
bookkeeping fields (id, type, data, createdAt, status) fall outside the
declared ProcessingResults record; on the typed slots the literal sets
exactly its own artifact slot and leaves every other slot absent. -/

/-- summarizeTextMutation.onSuccess (replace-based hook). -/
def summarizeOnSuccessFE (d : SummarizeTextOutput) (_prev : Option ProcessingResults) :
    ProcessingResults :=
  { emptyResults with summary := some d }

/-- generateMindmapMutation.onSuccess (replace-based hook). -/
def mindmapOnSuccessFE (d : MindmapOutput) (_prev : Option ProcessingResults) :
    ProcessingResults :=
  { emptyResults with mindmap := some d }

/-- generateQuizMutation.onSuccess (replace-based hook). -/
def quizOnSuccessFE (d : MCQQuizOutput) (_prev : Option ProcessingResults) :
    ProcessingResults :=
  { emptyResults with quiz := some d }

/-- generateFlashcardsMutation.onSuccess (replace-based hook). -/
def flashcardsOnSuccessFE (d : FlashcardOutput) (_prev : Option ProcessingResults) :
    ProcessingResults :=
  { emptyResults with flashcards := some d }

/-- Single-artifact completion event, as delivered to the merge-based
orchestrator's onSuccess handlers. -/
inductive CompletionP3 where
  | summary (d : SummarizeTextOutput)
  | mindmap (d : MindmapOutput)
  | quiz (d : MCQQuizOutput)
  | flashcards (d : FlashcardOutput)

/-- Application of a completion to the accumulator via the merge-based
onSuccess handlers. -/
def applyCompletionP3 : CompletionP3 → Option ProcessingResults → ProcessingResults
  | .summary d, prev => summarizeOnSuccessP3 d prev
  | .mindmap d, prev => mindmapOnSuccessP3 d prev
  | .quiz d, prev => quizOnSuccessP3 d prev
  | .flashcards d, prev => flashcardsOnSuccessP3 d prev

/-- Frame property of one completion: its own slot now holds the new
artifact and each of the three other artifact slots is exactly what it was
before the completion. -/
def framePreservedP3 (c : CompletionP3) (prev : Option ProcessingResults) : Prop :=
  let r := applyCompletionP3 c prev
  match c with
  | .summary d =>
      r.summary = some d ∧ r.mindmap = prev.bind (fun p => p.mindmap) ∧
      r.quiz = prev.bind (fun p => p.quiz) ∧ r.flashcards = prev.bind (fun p => p.flashcards)
  | .mindmap d =>
      r.mindmap = some d ∧ r.summary = prev.bind (fun p => p.summary) ∧
      r.quiz = prev.bind (fun p => p.quiz) ∧ r.flashcards = prev.bind (fun p => p.flashcards)
  | .quiz d =>
      r.quiz = some d ∧ r.summary = prev.bind (fun p => p.summary) ∧
      r.mindmap = prev.bind (fun p => p.mindmap) ∧ r.flashcards = prev.bind (fun p => p.flashcards)
  | .flashcards d =>
      r.flashcards = some d ∧ r.summary = prev.bind (fun p => p.summary) ∧
      r.mindmap = prev.bind (fun p => p.mindmap) ∧ r.quiz = prev.bind (fun p => p.quiz)

/-! ### Mutation lifecycles as state traces

Each mutation run is modelled as the list of orchestrator states it
traverses (initial state included) together with the fact of whether a
network request was issued.  The gateway's answer is an `Except`: the
transport normalises every failure to an error message (api.ts). -/

/-- Result of running one mutation. -/
structure RunResult where
  trace : List OrchState
  networkCall : Bool

/-- Status update performed at the start of every mutationFn:
`updateStatus(PROCESSING_STATES.PROCESSING, 0, msg)`. -/
def procStateUpd (s : OrchState) (msg : String) : OrchState :=
  { s with status := updateStatus s.status .processing (some 0) (some msg) none }

/-- Status update performed by every onError handler:
`updateStatus(PROCESSING_STATES.ERROR, 0, '', error.message)`. -/
def errStateUpd (s : OrchState) (msg : String) : OrchState :=
  { s with status := updateStatus s.status .error (some 0) (some "") (some msg) }

/-- Status update performed by an onSuccess handler after storing `r`:
`updateStatus(PROCESSING_STATES.SUCCESS, 100, msg)`. -/
def okStateUpd (s : OrchState) (msg : String) (r : ProcessingResults) : OrchState :=
  { status := updateStatus s.status .success (some 100) (some msg) none
    results := some r }

/-- Final state of a run. -/
def finalState (r : RunResult) : OrchState :=
  r.trace.getLastD initialOrchState

/-- generateMindmapMutation of the merge-based orchestrator:
`validateApiKey()` throws before the processing update when no key is
stored (useApiKey.ts), aborting without any network call; otherwise the
status passes through processing and the gateway outcome decides between
the onSuccess and onError updates. -/
def runMindmapP3 (hasApiKey : Bool) (outcome : Except String MindmapOutput)
    (s : OrchState) : RunResult :=
  if ¬hasApiKey then ⟨[s, errStateUpd s ERR_API_KEY_MISSING], false⟩
  else
    let sp := procStateUpd s "Generating mindmap..."
    match outcome with
    | .ok d =>
        ⟨[s, sp, okStateUpd sp "Mindmap generated successfully!" (mindmapOnSuccessP3 d s.results)], true⟩
    | .error e => ⟨[s, sp, errStateUpd sp e], true⟩

/-- generateQuizMutation of the merge-based orchestrator. -/
def runQuizP3 (hasApiKey : Bool) (outcome : Except String MCQQuizOutput)
    (s : OrchState) : RunResult :=
  if ¬hasApiKey then ⟨[s, errStateUpd s ERR_API_KEY_MISSING], false⟩
  else
    let sp := procStateUpd s "Generating quiz questions..."
    match outcome with
    | .ok d =>
        ⟨[s, sp, okStateUpd sp "Quiz generated successfully!" (quizOnSuccessP3 d s.results)], true⟩
    | .error e => ⟨[s, sp, errStateUpd sp e], true⟩

/-- generateFlashcardsMutation of the merge-based orchestrator. -/
def runFlashcardsP3 (hasApiKey : Bool) (outcome : Except String FlashcardOutput)
    (s : OrchState) : RunResult :=
  if ¬hasApiKey then ⟨[s, errStateUpd s ERR_API_KEY_MISSING], false⟩
  else
    let sp := procStateUpd s "Generating flashcards..."
    match outcome with
    | .ok d =>
        ⟨[s, sp, okStateUpd sp "Flashcards generated successfully!" (flashcardsOnSuccessP3 d s.results)], true⟩
    | .error e => ⟨[s, sp, errStateUpd sp e], true⟩

/-- summarizeMultimediaMutation of the merge-based orchestrator. -/
def runSummarizeMMP3 (hasApiKey : Bool) (outcome : Except String SummarizeTextOutput)
    (s : OrchState) : RunResult :=
  if ¬hasApiKey then ⟨[s, errStateUpd s ERR_API_KEY_MISSING], false⟩
  else
    let sp := procStateUpd s "Generating summary..."
    match outcome with
    | .ok d =>
        ⟨[s, sp, okStateUpd sp "Summary generated successfully!" (summarizeOnSuccessP3 d s.results)], true⟩
    | .error e => ⟨[s, sp, errStateUpd sp e], true⟩

/-- Guard and payload selection of processMultimediaMutation: the files of
each media category, the missing-input throw, and the `files[0]` picks. -/
structure MMCall where
  audioFile : Option JsFile
  videoFile : Option JsFile
  documentFile : Option JsFile
  text : Option String
deriving DecidableEq

/-- Missing-input condition of processMultimediaMutation:
`audioFiles.length === 0 && videoFiles.length === 0 &&
documentFiles.length === 0 && !text`. -/
def noMMInput (uploadedFiles : List UploadedFile) (text : Option String) : Bool :=
  (uploadedFiles.filter (fun f => SUPPORTED_AUDIO.contains f.extension)).isEmpty &&
  (uploadedFiles.filter (fun f => SUPPORTED_VIDEO.contains f.extension)).isEmpty &&
  (uploadedFiles.filter (fun f => SUPPORTED_DOCUMENTS.contains f.extension)).isEmpty &&
  !(truthyStr text)

/-- Validation-then-selection of processMultimediaMutation's mutationFn
before the network request: fails fast when no category file and no text
is present, otherwise takes `files[0]` of each category. -/
def processMultimediaGuard (uploadedFiles : List UploadedFile) (text : Option String) :
    Except String MMCall :=
  if noMMInput uploadedFiles text then
    .error "No files or text provided for processing"
  else
    .ok { audioFile := ((uploadedFiles.filter
            (fun f => SUPPORTED_AUDIO.contains f.extension)).head?).map (fun f => f.file)
          videoFile := ((uploadedFiles.filter
            (fun f => SUPPORTED_VIDEO.contains f.extension)).head?).map (fun f => f.file)
          documentFile := ((uploadedFiles.filter
            (fun f => SUPPORTED_DOCUMENTS.contains f.extension)).head?).map (fun f => f.file)
          text := text }

/-- processMultimediaMutation of the merge-based orchestrator: key check,
then the missing-input throw, both before the processing update and before
any network request. -/
def runProcessMMP3 (hasApiKey : Bool) (uploadedFiles : List UploadedFile)
    (text : Option String)
    (outcome : Except String (SummarizeTextOutput × MindmapOutput × MCQQuizOutput × FlashcardOutput))
    (s : OrchState) : RunResult :=
  if ¬hasApiKey then ⟨[s, errStateUpd s ERR_API_KEY_MISSING], false⟩
  else
    match processMultimediaGuard uploadedFiles text with
    | .error e => ⟨[s, errStateUpd s e], false⟩
    | .ok _ =>
        let sp := procStateUpd s "Processing your content..."
        match outcome with
        | .ok d =>
            ⟨[s, sp, okStateUpd sp "All resources generated successfully!"
                (processAllOnSuccessP3 d uploadedFiles s.results)], true⟩
        | .error e => ⟨[s, sp, errStateUpd sp e], true⟩

/-- summarizeTextMutation of the replace-based frontend hook: its
mutationFn performs no API-key validation at all — it updates the status
to processing and immediately issues the network request. -/
def runSummarizeTextFE (_hasApiKey : Bool) (outcome : Except String SummarizeTextOutput)
    (s : OrchState) : RunResult :=
  let sp := procStateUpd s "Generating summary..."
  match outcome with
  | .ok d =>
      ⟨[s, sp, okStateUpd sp "Summary generated successfully!" (summarizeOnSuccessFE d s.results)], true⟩
  | .error e => ⟨[s, sp, errStateUpd sp e], true⟩

/-- Sequence of status-machine states traversed by a run. -/
def traceStates (r : RunResult) : List ProcessingState :=
  r.trace.map (fun s => s.status.state)

/-- Consecutive pairs of a list: the transitions taken. -/
def adjacentPairs : List ProcessingState → List (ProcessingState × ProcessingState)
  | a :: b :: rest => (a, b) :: adjacentPairs (b :: rest)
  | _ => []

/-- Transition discipline satisfied by a run: no direct idle-to-success
step, and a direct idle-to-error step can only happen on a run that never
issued a network request (a precondition failure). -/
def safeTransitions (r : RunResult) : Prop :=
  (∀ p ∈ adjacentPairs (traceStates r), p.1 = ProcessingState.idle → p.2 ≠ ProcessingState.success) ∧
  ((ProcessingState.idle, ProcessingState.error) ∈ adjacentPairs (traceStates r) →
    r.networkCall = false)

/-! ## Transport layer (api.ts, ApiClient) -/

/-- Transport error message of the XMLHttpRequest timeout listener. -/
def MSG_TIMEOUT : String :=
  "Request timed out. Please try with a smaller file or check your connection."

/-- Transport error message of the XMLHttpRequest error listener. -/
def MSG_NETWORK_XHR : String := "Network error occurred"

/-- Transport error message of the XMLHttpRequest abort listener. -/
def MSG_ABORT : String := "Request was aborted"

/-- Transport error message for an unparsable response body. -/
def MSG_BAD_JSON : String := "Invalid JSON response"

/-- Outcome of `JSON.parse(xhr.responseText)` followed by the `data.error`
check. -/
inductive ParsedBody (α : Type) where
  | malformed
  | parsed (errField : Option String) (payload : α)

/-- Terminal XMLHttpRequest event observed by makeFileRequest. -/
inductive XhrEvent (α : Type) where
  | load (status : Nat) (body : ParsedBody α)
  | netError
  | timeout
  | abort

/-- Normalisation performed by ApiClient.makeFileRequest's event
listeners: 2xx with clean JSON resolves, everything else rejects with a
single descriptive message. -/
def fileRequestResult {α : Type} : XhrEvent α → Except String α
  | .load status body =>
      if 200 ≤ status ∧ status < 300 then
        match body with
        | .malformed => .error MSG_BAD_JSON
        | .parsed errField payload =>
            if truthyStr errField then .error (errField.getD "") else .ok payload
      else .error ("HTTP error! status: " ++ Nat.repr status)
  | .netError => .error MSG_NETWORK_XHR
  | .timeout => .error MSG_TIMEOUT
  | .abort => .error MSG_ABORT

/-- Transport timeout applied by makeFileRequest: `xhr.timeout = 300000`. -/
def makeFileRequestTimeoutMs : Option Nat := some 300000

/-- Transport timeout applied by makeRequest: the fetch call is issued
with headers, method and body only — no timeout and no AbortSignal appear
anywhere in makeRequest, so such a request is never timed out by the
client (`ApiClient.timeout` is assigned in the constructor but never
read). -/
def makeRequestTimeoutMs : Option Nat := none

/-- The two Gateway request variants. -/
inductive GatewayVariant where
  | json | multipart
deriving DecidableEq

/-- Client-side timeout in force for each request variant. -/
def variantTimeoutMs : GatewayVariant → Option Nat
  | .json => makeRequestTimeoutMs
  | .multipart => makeFileRequestTimeoutMs

/-! ## Request routing (C2) -/

/-- MCQQuizInput from types.ts (body of the JSON quiz endpoint). -/
structure MCQQuizInput where
  content : String
  num_questions : Nat
deriving DecidableEq

/-- Argument of generateQuizMutation.mutate:
`MCQQuizInput | { content?: string; numQuestions: number }`, modelled by
optional presence of each property. -/
structure QuizMutationInput where
  content : Option String
  numQuestions : Option Nat
deriving DecidableEq

/-- First queued file of a media category:
`uploadedFiles.find(f => exts.includes(f.extension))?.file`. -/
def findFirstFile (exts : List String) (uploadedFiles : List UploadedFile) : Option JsFile :=
  (uploadedFiles.find? (fun f => exts.contains f.extension)).map (fun f => f.file)

/-- Network call issued by a quiz request. -/
inductive QuizCall where
  | text (input : MCQQuizInput)
  | multimedia (audioFile videoFile documentFile : Option JsFile)
      (content : Option String) (numQuestions : Nat)
deriving DecidableEq

/-- Routing of generateQuizMutation in the text-routing orchestrator copy
("P4"): `'content' in input && input.content && input.content.trim()`
selects the JSON endpoint, anything else the multimedia endpoint with the
first queued file of each category. -/
def routeQuizP4 (input : QuizMutationInput) (uploadedFiles : List UploadedFile) : QuizCall :=
  let mm := QuizCall.multimedia
    (findFirstFile SUPPORTED_AUDIO uploadedFiles)
    (findFirstFile SUPPORTED_VIDEO uploadedFiles)
    (findFirstFile SUPPORTED_DOCUMENTS uploadedFiles)
    input.content (input.numQuestions.getD 10)
  match input.content with
  | some c =>
      if c ≠ "" ∧ jsTrim c ≠ "" then
        .text { content := c, num_questions := input.numQuestions.getD 10 }
      else mm
  | none => mm

/-- Truthiness of `input.content && input.content.trim()`. -/
def truthyTrimStr : Option String → Bool
  | none => false
  | some c => c ≠ "" && jsTrim c ≠ ""

/-- MindmapInput from types.ts. -/
structure MindmapInput where
  topic : String
deriving DecidableEq

/-- Argument of generateMindmapMutation.mutate:
`MindmapInput | string | undefined`. -/
inductive MindmapMutationInput where
  | obj (input : MindmapInput)
  | str (s : String)
  | undef
deriving DecidableEq

/-- Topic extraction: `typeof input === 'object' ? input.topic : input`. -/
def topicOfMindmapInput : MindmapMutationInput → Option String
  | .obj i => some i.topic
  | .str s => some s
  | .undef => none

/-- Network call issued by a mindmap request. -/
inductive MindmapCall where
  | text (input : MindmapInput)
  | multimedia (audioFile videoFile documentFile : Option JsFile) (topic : Option String)
deriving DecidableEq

/-- Routing of generateMindmapMutation in the merge-based orchestrator
copy: the comment in the source reads "Always use multimedia endpoint",
and indeed every input — a non-empty topic included — is sent to the
multimedia variant. -/
def routeMindmapP3 (input : MindmapMutationInput) (uploadedFiles : List UploadedFile) :
    MindmapCall :=
  .multimedia
    (findFirstFile SUPPORTED_AUDIO uploadedFiles)
    (findFirstFile SUPPORTED_VIDEO uploadedFiles)
    (findFirstFile SUPPORTED_DOCUMENTS uploadedFiles)
    (topicOfMindmapInput input)

/-! ## Mermaid generation (mindmapToMermaid.ts) -/

/-- Characters removed by the first replace of sanitizeNodeName
(brackets, parentheses and braces). -/
def isBracketChar (c : Char) : Bool :=
  c = '[' || c = ']' || c = '(' || c = ')' || c = '\x7b' || c = '\x7d'

/-- Characters kept by the second replace of sanitizeNodeName, the
complement of `[^\w\s\-_]`: word characters `[A-Za-z0-9_]`, whitespace,
hyphen and underscore. -/
def isKeptChar (c : Char) : Bool :=
  c.isAlphanum || c = '_' || isJsSpace c || c = '-'

/-- sanitizeNodeName from mindmapToMermaid.ts: a falsy name becomes
"Unnamed"; otherwise brackets are removed, then everything outside the
kept class, then the result is trimmed and truncated to 50 characters. -/
def sanitizeNodeName (name : String) : String :=
  if name = "" then "Unnamed"
  else ⟨(jsTrimList ((name.data.filter (fun c => ¬ isBracketChar c)).filter isKeptChar)).take 50⟩

/-- generateSafeId from mindmapToMermaid.ts:
`baseId.replace(/[^a-zA-Z0-9_]/g, '_')`. -/
def generateSafeId (baseId : String) : String :=
  ⟨baseId.data.map (fun c => if c.isAlphanum || c = '_' then c else '_')⟩

/-- MindmapData argument of the converters. -/
structure MindmapData where
  topic : String
  mindmap : MindmapNode

/-- One emitted Mermaid line: either a node declaration or an edge. -/
inductive MermaidLine where
  | node (id : String) (label : String)
  | edge (fromId : String) (toId : String)
deriving DecidableEq

/-- Source text of one emitted line. -/
def renderMermaidLine : MermaidLine → String
  | .node i lbl => "  " ++ i ++ "[\"" ++ lbl ++ "\"]\n"
  | .edge a b => "  " ++ a ++ " --> " ++ b ++ "\n"

/-- Shared emission loop of both converters.  The inner `processNode`
closure and the top-level `mindmapData.mindmap.children.forEach` loop in
the source are the same code (the top level runs it with the parent id
"root" and level and index 0); both exported converters duplicate this
loop verbatim, so it is embedded once here.  For each child with index:
a falsy name skips the child entirely; otherwise a node line and an edge
line are appended and the child's own children are processed with the
child's id and the incremented level. -/
def processChildren : List MindmapNode → String → Nat → Nat → List MermaidLine
  | [], _, _, _ => []
  | MindmapNode.mk name children :: rest, parentId, level, index =>
      (if name = "" then []
       else
         let childId := generateSafeId (parentId ++ "_" ++ Nat.repr level ++ "_" ++ Nat.repr index)
         MermaidLine.node childId (sanitizeNodeName name) ::
         MermaidLine.edge parentId childId ::
         processChildren children childId (level + 1) 0) ++
      processChildren rest parentId level (index + 1)

/-- Lines emitted by convertMindmapToMermaid and
convertMindmapToRadialMermaid (both emit the same lines and differ only
in the `graph TD` / `graph LR` header): a root with no children yields
exactly the placeholder node, otherwise the sanitized topic root node is
followed by the recursive emission over the root's children. -/
def mermaidLinesOf (d : MindmapData) : List MermaidLine :=
  if d.mindmap.children.isEmpty then [MermaidLine.node "empty" "No data available"]
  else
    MermaidLine.node "root" (sanitizeNodeName d.topic) ::
    processChildren d.mindmap.children "root" 0 0

/-- String assembly shared by the converters (`mermaidCode += ...`). -/
def renderMermaid (header : String) (lines : List MermaidLine) : String :=
  header ++ String.join (lines.map renderMermaidLine)

/-- convertMindmapToMermaid from mindmapToMermaid.ts. -/
def convertMindmapToMermaid (d : MindmapData) : String :=
  renderMermaid "graph TD\n" (mermaidLinesOf d)

/-- convertMindmapToRadialMermaid from mindmapToMermaid.ts. -/
def convertMindmapToRadialMermaid (d : MindmapData) : String :=
  renderMermaid "graph LR\n" (mermaidLinesOf d)

/-- Identifiers of the emitted node declarations, in order. -/
def nodeIdsOf (lines : List MermaidLine) : List String :=
  lines.filterMap (fun l => match l with | .node i _ => some i | .edge _ _ => none)

/-- Emitted edges, in order. -/
def edgesOf (lines : List MermaidLine) : List (String × String) :=
  lines.filterMap (fun l => match l with | .node _ _ => none | .edge a b => some (a, b))

/-! ### Identifier paths (proof infrastructure for collision-freeness) -/

/-- Level/index path of every emitted node below a given parent,
mirroring the recursion of processChildren. -/
def pathsOfList : List MindmapNode → Nat → Nat → List (List (Nat × Nat))
  | [], _, _ => []
  | MindmapNode.mk name children :: rest, level, index =>
      (if name = "" then []
       else [(level, index)] ::
         (pathsOfList children (level + 1) 0).map (fun p => (level, index) :: p)) ++
      pathsOfList rest level (index + 1)

/-- Identifier determined by a parent id and a level/index path. -/
def idOfPath (parentId : String) (p : List (Nat × Nat)) : String :=
  p.foldl (fun s q => s ++ "_" ++ Nat.repr q.1 ++ "_" ++ Nat.repr q.2) parentId

/-- Character data contributed by one path component. -/
def blockData (q : Nat × Nat) : List Char :=
  '_' :: (Nat.repr q.1).data ++ '_' :: (Nat.repr q.2).data

/-- Character data contributed by a whole path. -/
def blocksData (p : List (Nat × Nat)) : List Char :=
  (p.map blockData).flatten

/-- Characters that generateSafeId maps to themselves. -/
def isSafeChar (c : Char) : Bool := c.isAlphanum || c = '_'

/-- Decimal value of a digit string (inverse of Nat.repr). -/
def digitsVal (l : List Char) : Nat :=
  l.foldl (fun a c => 10 * a + (c.toNat - 48)) 0

/-! ## Helper predicates and concrete data used by the theorems -/

/-- Behaviour required of a mutation run started without a stored API
credential: no network request, terminal error status carrying the
missing-key message, untouched results accumulator. -/
def noKeyAborted (r : RunResult) (s : OrchState) : Prop :=
  r.networkCall = false ∧
  (finalState r).status.state = ProcessingState.error ∧
  (finalState r).status.error = some ERR_API_KEY_MISSING ∧
  (finalState r).results = s.results

/-- Behaviour of a run whose gateway request failed with message `e`:
error status carrying `e`, with every previously completed results slot
left intact. -/
def errorRunPreserves (r : RunResult) (s : OrchState) (e : String) : Prop :=
  (finalState r).status.state = ProcessingState.error ∧
  (finalState r).status.error = some e ∧
  (finalState r).results = s.results

/-- Concrete summary payload used in counterexamples and witnesses. -/
def exSummaryOut : SummarizeTextOutput :=
  { success := true, original_text := "text", summary := "sum"
    word_count_original := 2, word_count_summary := 1, content_type := some "text" }

/-- Concrete quiz payload used in counterexamples and witnesses. -/
def exQuizOut : MCQQuizOutput :=
  { success := true, content := "c", num_questions := 1
    quiz := [{ question := "q", options := ["a", "b", "c", "d"]
               correct_answer := "a", explanation := "e" }]
    content_type := some "text" }

/-! # Theorems -/

/-! ## C3: quiz scoring and restart -/

/-- Loop characterisation: the forEach scoring loop started at offset `k`
counts the indices whose recorded answer matches the question's correct
answer. -/
theorem quizScoreLoop_eq (qs : List MCQQuestion) (ans : List (Option String)) (k : Nat) :
    quizScoreLoop qs k ans =
      (List.range qs.length).countP
        (fun i => decide (ans.getD (k + i) none = some ((qs.getD i default).correct_answer))) := by
  induction qs generalizing k with
  | nil => simp [quizScoreLoop]
  | cons q qs ih =>
      have hshift :
          (fun i => decide (ans.getD (k + 1 + i) none = some ((qs.getD i default).correct_answer))) =
            (fun i => decide (ans.getD (k + (i + 1)) none = some ((qs.getD i default).correct_answer))) := by
        funext i
        have h : k + 1 + i = k + (i + 1) := by omega
        rw [h]
      simp only [quizScoreLoop, List.length_cons, List.range_succ_eq_map,
        List.countP_cons, List.countP_map, ih (k + 1), hshift]
      by_cases h : ans.getD k none = some q.correct_answer <;>
        simp [h, Function.comp_def, Nat.add_comm]

/-- C3: for every quiz of N questions and every answer vector, finishing
sets the score to exactly the number of indices whose answer equals the
question's correct answer (exact equality, with out-of-range reads never
matching) and sets showResults, leaving the current index and the answers
unchanged; restarting resets the index to 0, the answers to all-null of
length N, showResults to false and the score to 0. -/
theorem c3_quiz_scoring (quiz : List MCQQuestion) (s : QuizState) :
    (handleFinishQuiz quiz s).score =
      (List.range quiz.length).countP
        (fun i => decide (s.userAnswers.getD i none = some ((quiz.getD i default).correct_answer))) ∧
    (handleFinishQuiz quiz s).showResults = true ∧
    (handleFinishQuiz quiz s).currentQuestion = s.currentQuestion ∧
    (handleFinishQuiz quiz s).userAnswers = s.userAnswers ∧
    handleRestartQuiz quiz s =
      { currentQuestion := 0, userAnswers := List.replicate quiz.length none
        showResults := false, score := 0 } := by
  refine ⟨?_, rfl, rfl, rfl, rfl⟩
  have h := quizScoreLoop_eq quiz s.userAnswers 0
  simpa [handleFinishQuiz, Nat.zero_add] using h

/-! ## C4: file validator -/

/-- Branch characterisation of validateFile. -/
theorem validateFile_eq (f : JsFile) :
    validateFile f =
      if SUPPORTED_ALL.contains (fileExtensionOf f.name) = true then
        (if MAX_FILE_SIZE < f.size then { isValid := false, error := some ERR_FILE_TOO_LARGE }
         else { isValid := true, error := none })
      else { isValid := false, error := some ERR_UNSUPPORTED_FILE_TYPE } := by
  simp only [validateFile]
  cases hc : SUPPORTED_ALL.contains (fileExtensionOf f.name) <;> simp

/-- C4 counterexample: the file named "pdf" has no extension (its name
contains no dot), so under the claim it must be rejected; the validator
computes the extension as "." plus the last split segment — here ".pdf" —
and accepts it. -/
theorem c4_counterexample :
    (validateFile { name := "pdf", size := 1 }).isValid = true ∧
    claimAccepts { name := "pdf", size := 1 } = false := by
  exact ⟨rfl, rfl⟩

/-- C4 amended: the validator accepts exactly when "." plus the lowercased
segment after the last dot of the name (for a dotless name, the whole
name) is in the allow-list and the size is at most 50 MB; each rejection
carries its stated reason; whenever the name does have an extension in
the claim's sense, the validator's computed extension agrees with it.
The embedded validator is a total function, so it never throws. -/
theorem c4_amended (f : JsFile) :
    ((validateFile f).isValid = true ↔
      SUPPORTED_ALL.contains (fileExtensionOf f.name) = true ∧ f.size ≤ MAX_FILE_SIZE) ∧
    (SUPPORTED_ALL.contains (fileExtensionOf f.name) = false →
      validateFile f = { isValid := false, error := some ERR_UNSUPPORTED_FILE_TYPE }) ∧
    (SUPPORTED_ALL.contains (fileExtensionOf f.name) = true → MAX_FILE_SIZE < f.size →
      validateFile f = { isValid := false, error := some ERR_FILE_TOO_LARGE }) ∧
    ((validateFile f).isValid = false → (validateFile f).error.isSome = true) ∧
    (∀ e, specExtension f.name = some e → fileExtensionOf f.name = e) := by
  have hval := validateFile_eq f
  refine ⟨?_, ?_, ?_, ?_, ?_⟩
  · rw [hval]
    cases hc : SUPPORTED_ALL.contains (fileExtensionOf f.name) with
    | false =>
        rw [if_neg (by simp)]
        simp
    | true =>
        rw [if_pos rfl]
        by_cases hs : MAX_FILE_SIZE < f.size
        · rw [if_pos hs]
          simp
          omega
        · rw [if_neg hs]
          simp
          omega
  · intro hc
    rw [hval, hc]
    simp
  · intro hc hs
    rw [hval, hc, if_pos rfl, if_pos hs]
  · rw [hval]
    cases hc : SUPPORTED_ALL.contains (fileExtensionOf f.name) with
    | false =>
        rw [if_neg (by simp)]
        intro _
        rfl
    | true =>
        rw [if_pos rfl]
        by_cases hs : MAX_FILE_SIZE < f.size
        · rw [if_pos hs]
          intro _
          rfl
        · rw [if_neg hs]
          intro hcontra
          exact absurd hcontra (by simp)
  · intro e he
    unfold specExtension at he
    unfold fileExtensionOf
    rcases h : jsSplitDot f.name with _ | ⟨a, _ | ⟨b, t⟩⟩ <;> rw [h] at he <;>
      simp_all

/-- C4 witness: the amended theorem applied to a rejected unsupported
file and to an accepted mixed-case document file. -/
theorem c4_witness :
    validateFile { name := "notes.xyz", size := 5 } =
      { isValid := false, error := some ERR_UNSUPPORTED_FILE_TYPE } ∧
    (validateFile { name := "Lecture.PDF", size := 100 }).isValid = true := by
  refine ⟨(c4_amended { name := "notes.xyz", size := 5 }).2.1 (by decide), ?_⟩
  exact ((c4_amended { name := "Lecture.PDF", size := 100 }).1).mpr ⟨by decide, by decide⟩

/-! ## C9: cancel versus reset -/

/-- C9: cancelProcessing sets the status to idle with progress 0 and the
message "Processing cancelled" while leaving the results accumulator
unchanged; resetProcessing sets the status back to the pristine idle
status and clears the results to null. -/
theorem c9_cancel_reset (s : OrchState) :
    (cancelProcessing s).results = s.results ∧
    (cancelProcessing s).status =
      { state := .idle, progress := 0, message := "Processing cancelled", error := none } ∧
    resetProcessing s =
      { status := { state := .idle, progress := 0, message := "", error := none }
        results := none } :=
  ⟨rfl, rfl, rfl⟩

/-! ## C1: results-slot frame property -/

/-- C1 counterexample: under the replace-based frontend hook, a summary
completion stores the summary, and a subsequent quiz completion replaces
the whole results object, erasing the previously generated summary. -/
theorem c1_counterexample :
    (summarizeOnSuccessFE exSummaryOut none).summary = some exSummaryOut ∧
    (quizOnSuccessFE exQuizOut (some (summarizeOnSuccessFE exSummaryOut none))).summary = none :=
  ⟨rfl, rfl⟩

/-- C1 amended: in the merge-based orchestrator copy, every
single-artifact completion applied to any accumulator state writes its
own named slot with the new artifact and leaves each of the three other
artifact slots exactly as it was, so a quiz completion never erases a
previously generated summary there. -/
theorem c1_amended (c : CompletionP3) (prev : Option ProcessingResults) :
    framePreservedP3 c prev := by
  cases c <;> cases prev <;>
    simp [framePreservedP3, applyCompletionP3, summarizeOnSuccessP3, mindmapOnSuccessP3,
      quizOnSuccessP3, flashcardsOnSuccessP3, emptyResults]

/-! ## C2: request routing -/

/-- C2 counterexample: a quiz request with no content and an empty file
queue — the claim demands a validation error and no network call — is
routed by generateQuizMutation to the multimedia endpoint: a network
request is issued with no files attached. -/
theorem c2_counterexample :
    routeQuizP4 { content := none, numQuestions := some 5 } [] =
      QuizCall.multimedia none none none none 5 := rfl

/-- C2 amended: non-empty (after trim) content routes the quiz request to
the JSON endpoint; otherwise the multimedia variant is called with the
first queued file of each category — even when both text and queue are
empty.  Only the combined processMultimedia mutation fails fast with the
validation error when no category file and no text is present.  The
merge-based mindmap mutation always calls the multimedia variant, whatever
the input.  Files of a category beyond the first are silently ignored. -/
theorem c2_amended (input : QuizMutationInput) (uploadedFiles : List UploadedFile) :
    (∀ c, input.content = some c → truthyTrimStr input.content = true →
      routeQuizP4 input uploadedFiles =
        QuizCall.text { content := c, num_questions := input.numQuestions.getD 10 }) ∧
    (truthyTrimStr input.content = false →
      routeQuizP4 input uploadedFiles =
        QuizCall.multimedia
          (findFirstFile SUPPORTED_AUDIO uploadedFiles)
          (findFirstFile SUPPORTED_VIDEO uploadedFiles)
          (findFirstFile SUPPORTED_DOCUMENTS uploadedFiles)
          input.content (input.numQuestions.getD 10)) ∧
    (∀ text, noMMInput uploadedFiles text = true →
      processMultimediaGuard uploadedFiles text =
        Except.error "No files or text provided for processing") ∧
    (∀ text, noMMInput uploadedFiles text = false →
      processMultimediaGuard uploadedFiles text =
        Except.ok
          { audioFile := ((uploadedFiles.filter
              (fun f => SUPPORTED_AUDIO.contains f.extension)).head?).map (fun f => f.file)
            videoFile := ((uploadedFiles.filter
              (fun f => SUPPORTED_VIDEO.contains f.extension)).head?).map (fun f => f.file)
            documentFile := ((uploadedFiles.filter
              (fun f => SUPPORTED_DOCUMENTS.contains f.extension)).head?).map (fun f => f.file)
            text := text }) ∧
    (∀ minput, routeMindmapP3 minput uploadedFiles =
      MindmapCall.multimedia
        (findFirstFile SUPPORTED_AUDIO uploadedFiles)
        (findFirstFile SUPPORTED_VIDEO uploadedFiles)
        (findFirstFile SUPPORTED_DOCUMENTS uploadedFiles)
        (topicOfMindmapInput minput)) ∧
    (∀ (exts : List String) (pre : List UploadedFile) (g : UploadedFile) (post : List UploadedFile),
      (∀ h ∈ pre, exts.contains h.extension = false) → exts.contains g.extension = true →
      findFirstFile exts (pre ++ g :: post) = some g.file) := by
  refine ⟨?_, ?_, ?_, ?_, fun _ => rfl, ?_⟩
  · intro c hc ht
    rcases input with ⟨ic, inq⟩
    obtain rfl : ic = some c := hc
    simp only [truthyTrimStr, Bool.and_eq_true, decide_eq_true_eq] at ht
    simp only [routeQuizP4]
    rw [if_pos ⟨ht.1, ht.2⟩]
  · intro ht
    rcases input with ⟨ic, inq⟩
    cases ic with
    | none => rfl
    | some c =>
        simp only [truthyTrimStr] at ht
        simp only [routeQuizP4]
        rw [if_neg]
        rintro ⟨h1, h2⟩
        simp [h1, h2] at ht
  · intro text hguard
    unfold processMultimediaGuard
    rw [if_pos hguard]
  · intro text hguard
    unfold processMultimediaGuard
    rw [if_neg (by simp [hguard])]
  · intro exts pre g post hpre hg
    induction pre with
    | nil =>
        simp only [List.nil_append, findFirstFile, List.find?, hg]
        rfl
    | cons a pre ih =>
        have ha : exts.contains a.extension = false := hpre a (List.mem_cons_self a pre)
        have ih2 := ih (fun x hx => hpre x (List.mem_cons_of_mem a hx))
        simp only [List.cons_append, findFirstFile, List.find?, ha] at ih2 ⊢
        exact ih2

/-- C2 witness: the amended routing applied to a concrete text-bearing
quiz request and to the combined mutation's empty-input guard. -/
theorem c2_witness :
    routeQuizP4 { content := some "hello world", numQuestions := some 3 } [] =
      QuizCall.text { content := "hello world", num_questions := 3 } ∧
    processMultimediaGuard [] none =
      Except.error "No files or text provided for processing" := by
  refine ⟨?_, ?_⟩
  · exact (c2_amended { content := some "hello world", numQuestions := some 3 } []).1
      "hello world" rfl (by decide)
  · exact (c2_amended { content := some "hello world", numQuestions := some 3 } []).2.2.1
      none (by decide)

/-! ## C5: missing API credential -/

/-- C5 counterexample: the replace-based frontend hook's
summarizeTextMutation performs no credential check — started with no
stored API key it still issues the network request, and a successful
gateway response even drives the status to success instead of error. -/
theorem c5_counterexample :
    (runSummarizeTextFE false (Except.ok exSummaryOut) initialOrchState).networkCall = true ∧
    (finalState (runSummarizeTextFE false (Except.ok exSummaryOut) initialOrchState)).status.state =
      ProcessingState.success :=
  ⟨rfl, rfl⟩

/-- C5 amended: in the merge-based orchestrator copy every mutation calls
validateApiKey first, so a run started without a stored credential raises
the missing-key error synchronously — no network request is issued, the
status transitions to error with the missing-key message and the results
accumulator is untouched.  The replace-based frontend hook performs no
such check (see the C5 counterexample). -/
theorem c5_amended (s : OrchState) :
    (∀ o, noKeyAborted (runMindmapP3 false o s) s) ∧
    (∀ o, noKeyAborted (runQuizP3 false o s) s) ∧
    (∀ o, noKeyAborted (runFlashcardsP3 false o s) s) ∧
    (∀ o, noKeyAborted (runSummarizeMMP3 false o s) s) ∧
    (∀ files text o, noKeyAborted (runProcessMMP3 false files text o s) s) :=
  ⟨fun _ => ⟨rfl, rfl, rfl, rfl⟩, fun _ => ⟨rfl, rfl, rfl, rfl⟩,
   fun _ => ⟨rfl, rfl, rfl, rfl⟩, fun _ => ⟨rfl, rfl, rfl, rfl⟩,
   fun _ _ _ => ⟨rfl, rfl, rfl, rfl⟩⟩

/-! ## C6: status-machine transitions -/

/-- C6 counterexample: a mindmap run started from idle with no stored API
key goes directly from idle to error — the trace is exactly
[idle, error], never passing through processing. -/
theorem c6_counterexample :
    traceStates (runMindmapP3 false (Except.error "boom") initialOrchState) =
      [ProcessingState.idle, ProcessingState.error] ∧
    ProcessingState.processing ∉
      traceStates (runMindmapP3 false (Except.error "boom") initialOrchState) := by
  exact ⟨rfl, by decide⟩

/-- Transition discipline of a two-state precondition-failure trace. -/
theorem safeTransitions_precheck (s : OrchState) (msg : String) :
    safeTransitions ⟨[s, errStateUpd s msg], false⟩ := by
  have ht : traceStates ⟨[s, errStateUpd s msg], false⟩ =
      [s.status.state, ProcessingState.error] := by
    simp [traceStates, errStateUpd, updateStatus]
  constructor
  · intro p hmem h1
    rw [ht] at hmem
    simp only [adjacentPairs, List.mem_singleton] at hmem
    subst hmem
    simp
  · intro _
    rfl

/-- Transition discipline of a three-state trace whose middle state is
processing. -/
theorem safeTransitions_viaProcessing (s sp sf : OrchState) (b : Bool)
    (hp : sp.status.state = ProcessingState.processing) :
    safeTransitions ⟨[s, sp, sf], b⟩ := by
  have ht : traceStates ⟨[s, sp, sf], b⟩ =
      [s.status.state, ProcessingState.processing, sf.status.state] := by
    simp [traceStates, hp]
  constructor
  · intro p hmem h1
    rw [ht] at hmem
    simp only [adjacentPairs, List.mem_cons, List.mem_singleton, List.not_mem_nil,
      or_false] at hmem
    rcases hmem with rfl | rfl
    · simp
    · simp at h1
  · intro hmem
    rw [ht] at hmem
    simp [adjacentPairs, Prod.ext_iff] at hmem

/-- C6 amended: across both orchestrator copies no run ever steps
directly from idle to success — every success is reached through
processing; a direct idle-to-error step does occur, but only on runs that
issued no network request (the synchronous precondition failures:
missing API key, or missing input in the combined mutation).  Gateway
rejections always pass through processing first. -/
theorem c6_amended (s : OrchState) :
    (∀ k o, safeTransitions (runMindmapP3 k o s)) ∧
    (∀ k o, safeTransitions (runQuizP3 k o s)) ∧
    (∀ k o, safeTransitions (runFlashcardsP3 k o s)) ∧
    (∀ k o, safeTransitions (runSummarizeMMP3 k o s)) ∧
    (∀ k files text o, safeTransitions (runProcessMMP3 k files text o s)) ∧
    (∀ k o, safeTransitions (runSummarizeTextFE k o s)) := by
  refine ⟨fun k o => ?_, fun k o => ?_, fun k o => ?_, fun k o => ?_,
    fun k files text o => ?_, fun k o => ?_⟩
  · cases k
    · exact safeTransitions_precheck s ERR_API_KEY_MISSING
    · cases o <;> exact safeTransitions_viaProcessing _ _ _ _ rfl
  · cases k
    · exact safeTransitions_precheck s ERR_API_KEY_MISSING
    · cases o <;> exact safeTransitions_viaProcessing _ _ _ _ rfl
  · cases k
    · exact safeTransitions_precheck s ERR_API_KEY_MISSING
    · cases o <;> exact safeTransitions_viaProcessing _ _ _ _ rfl
  · cases k
    · exact safeTransitions_precheck s ERR_API_KEY_MISSING
    · cases o <;> exact safeTransitions_viaProcessing _ _ _ _ rfl
  · cases k
    · exact safeTransitions_precheck s ERR_API_KEY_MISSING
    · rcases hg : processMultimediaGuard files text with e | mc
      · have hr : runProcessMMP3 true files text o s = ⟨[s, errStateUpd s e], false⟩ := by
          simp [runProcessMMP3, hg]
        rw [hr]
        exact safeTransitions_precheck s e
      · cases o with
        | error e =>
            have hr : runProcessMMP3 true files text (Except.error e) s =
                ⟨[s, procStateUpd s "Processing your content...",
                  errStateUpd (procStateUpd s "Processing your content...") e], true⟩ := by
              simp [runProcessMMP3, hg]
            rw [hr]
            exact safeTransitions_viaProcessing _ _ _ _ rfl
        | ok d =>
            have hr : runProcessMMP3 true files text (Except.ok d) s =
                ⟨[s, procStateUpd s "Processing your content...",
                  okStateUpd (procStateUpd s "Processing your content...")
                    "All resources generated successfully!"
                    (processAllOnSuccessP3 d files s.results)], true⟩ := by
              simp [runProcessMMP3, hg]
            rw [hr]
            exact safeTransitions_viaProcessing _ _ _ _ rfl
  · cases o <;> exact safeTransitions_viaProcessing _ _ _ _ rfl

/-- C6 witness: the amended theorem applied to the combined mutation's
missing-input failure, whose trace does contain a direct idle-to-error
step, concluding that that run made no network request. -/
theorem c6_witness :
    (runProcessMMP3 true [] none (Except.error "") initialOrchState).networkCall = false := by
  exact ((c6_amended initialOrchState).2.2.2.2.1 true [] none (Except.error "")).2 (by decide)

/-! ## C7: transport timeout -/

/-- C7 counterexample: the JSON request variant is issued by makeRequest
via fetch with no timeout of any kind, so it is not subject to the
5-minute transport timeout the claim asserts for every request. -/
theorem c7_counterexample :
    variantTimeoutMs GatewayVariant.json = none ∧
    variantTimeoutMs GatewayVariant.json ≠ some API_CONFIG_TIMEOUT := by
  exact ⟨rfl, by decide⟩

/-- C7 amended: only the multipart variant carries the fixed 5-minute
(300000 ms) transport timeout; a multipart request that exceeds it is
rejected with the timeout message, and any gateway failure surfaced to a
merge-based mutation drives the status to error carrying that message
while every previously completed slot of the results accumulator remains
intact. -/
theorem c7_amended :
    variantTimeoutMs GatewayVariant.multipart = some API_CONFIG_TIMEOUT ∧
    (∀ α : Type, @fileRequestResult α XhrEvent.timeout = Except.error MSG_TIMEOUT) ∧
    (∀ s e, errorRunPreserves (runMindmapP3 true (Except.error e) s) s e) ∧
    (∀ s e, errorRunPreserves (runQuizP3 true (Except.error e) s) s e) ∧
    (∀ s e, errorRunPreserves (runFlashcardsP3 true (Except.error e) s) s e) ∧
    (∀ s e, errorRunPreserves (runSummarizeMMP3 true (Except.error e) s) s e) :=
  ⟨rfl, fun _ => rfl,
   fun _ _ => ⟨rfl, rfl, rfl⟩, fun _ _ => ⟨rfl, rfl, rfl⟩,
   fun _ _ => ⟨rfl, rfl, rfl⟩, fun _ _ => ⟨rfl, rfl, rfl⟩⟩

/-! ## Decimal representation: digits, value, injectivity

The Mermaid identifiers interpolate decimal numerals; collision-freeness
rests on the facts that these numerals consist of digit characters only
and determine their value. -/

/-- Digit characters for values below ten. -/
theorem digitChar_isDigit (m : Nat) (h : m < 10) : (Nat.digitChar m).isDigit = true := by
  interval_cases m <;> rfl

/-- Numeric value recovered from a digit character. -/
theorem digitChar_val (m : Nat) (h : m < 10) : (Nat.digitChar m).toNat - 48 = m := by
  interval_cases m <;> rfl

/-- Accumulator shape of the core digit loop. -/
theorem toDigitsCore_acc (fuel : Nat) : ∀ (n : Nat) (acc : List Char),
    Nat.toDigitsCore 10 fuel n acc = Nat.toDigitsCore 10 fuel n [] ++ acc := by
  induction fuel with
  | zero => intro n acc; rfl
  | succ fuel ih =>
      intro n acc
      have hstep : ∀ a : List Char, Nat.toDigitsCore 10 (fuel + 1) n a =
          (if n / 10 = 0 then Nat.digitChar (n % 10) :: a
           else Nat.toDigitsCore 10 fuel (n / 10) (Nat.digitChar (n % 10) :: a)) :=
        fun _ => rfl
      by_cases h : n / 10 = 0
      · rw [hstep, hstep, if_pos h, if_pos h]
        rfl
      · rw [hstep, hstep, if_neg h, if_neg h,
          ih (n / 10) (Nat.digitChar (n % 10) :: acc), ih (n / 10) [Nat.digitChar (n % 10)]]
        simp

/-- Value of the digit string produced by the core loop. -/
theorem toDigitsCore_val (fuel : Nat) : ∀ n, n < fuel →
    digitsVal (Nat.toDigitsCore 10 fuel n []) = n := by
  induction fuel with
  | zero => intro n h; exact absurd h (Nat.not_lt_zero n)
  | succ fuel ih =>
      intro n h
      have hstep : Nat.toDigitsCore 10 (fuel + 1) n [] =
          (if n / 10 = 0 then [Nat.digitChar (n % 10)]
           else Nat.toDigitsCore 10 fuel (n / 10) [Nat.digitChar (n % 10)]) := rfl
      by_cases h0 : n / 10 = 0
      · rw [hstep, if_pos h0]
        have hval := digitChar_val (n % 10) (by omega)
        simp only [digitsVal, List.foldl_cons, List.foldl_nil, Nat.mul_zero, Nat.zero_add]
        omega
      · rw [hstep, if_neg h0, toDigitsCore_acc]
        have hval : digitsVal (Nat.toDigitsCore 10 fuel (n / 10) [] ++ [Nat.digitChar (n % 10)]) =
            10 * digitsVal (Nat.toDigitsCore 10 fuel (n / 10) []) +
              ((Nat.digitChar (n % 10)).toNat - 48) := by
          simp [digitsVal, List.foldl_append]
        rw [hval, ih (n / 10) (by omega), digitChar_val (n % 10) (by omega)]
        omega

/-- Value of the decimal representation. -/
theorem reprData_val (n : Nat) : digitsVal (Nat.repr n).data = n := by
  have h : (Nat.repr n).data = Nat.toDigitsCore 10 (n + 1) n [] := rfl
  rw [h, toDigitsCore_val (n + 1) n (Nat.lt_succ_self n)]

/-- Decimal representations of distinct numbers differ. -/
theorem reprData_injective {a b : Nat} (h : (Nat.repr a).data = (Nat.repr b).data) : a = b := by
  have hv := congrArg digitsVal h
  rwa [reprData_val, reprData_val] at hv

/-- Every character the core loop emits is a digit. -/
theorem toDigitsCore_digits (fuel : Nat) : ∀ (n : Nat) (acc : List Char),
    (∀ c ∈ acc, c.isDigit = true) →
    ∀ c ∈ Nat.toDigitsCore 10 fuel n acc, c.isDigit = true := by
  induction fuel with
  | zero => intro n acc hacc c hc; exact hacc c hc
  | succ fuel ih =>
      intro n acc hacc c hc
      have hstep : Nat.toDigitsCore 10 (fuel + 1) n acc =
          (if n / 10 = 0 then Nat.digitChar (n % 10) :: acc
           else Nat.toDigitsCore 10 fuel (n / 10) (Nat.digitChar (n % 10) :: acc)) := rfl
      rw [hstep] at hc
      by_cases h0 : n / 10 = 0
      · rw [if_pos h0] at hc
        rcases List.mem_cons.mp hc with rfl | hc2
        · exact digitChar_isDigit _ (by omega)
        · exact hacc c hc2
      · rw [if_neg h0] at hc
        refine ih (n / 10) _ ?_ c hc
        intro d hd
        rcases List.mem_cons.mp hd with rfl | hd2
        · exact digitChar_isDigit _ (by omega)
        · exact hacc d hd2

/-- Characters of a decimal representation are digits. -/
theorem reprData_digits (n : Nat) : ∀ c ∈ (Nat.repr n).data, c.isDigit = true := by
  intro c hc
  exact toDigitsCore_digits (n + 1) n [] (by intro d hd; simp at hd) c hc

/-- Digits survive generateSafeId. -/
theorem isDigit_isSafeChar {c : Char} (h : c.isDigit = true) : isSafeChar c = true := by
  unfold isSafeChar Char.isAlphanum
  simp [h]

/-- Digits are never the underscore separator. -/
theorem isDigit_ne_underscore {c : Char} (h : c.isDigit = true) : c ≠ '_' := by
  intro heq
  subst heq
  exact absurd h (by decide)

/-! ## Underscore-separated token lists -/

/-- Cancellation for separator-free prefixes: when both continuations are
empty or start with the separator, the prefix and the continuation are
each determined. -/
theorem append_block_inj : ∀ (a b m k : List Char),
    (∀ c ∈ a, c ≠ '_') → (∀ c ∈ b, c ≠ '_') →
    (m = [] ∨ ∃ t, m = '_' :: t) → (k = [] ∨ ∃ t, k = '_' :: t) →
    a ++ m = b ++ k → a = b ∧ m = k := by
  intro a
  induction a with
  | nil =>
      intro b m k _ hb hm _ h
      cases b with
      | nil => exact ⟨rfl, by simpa using h⟩
      | cons y b2 =>
          exfalso
          simp only [List.nil_append, List.cons_append] at h
          rcases hm with rfl | ⟨t, rfl⟩
          · exact List.noConfusion h
          · injection h with h1 _
            exact hb y (List.mem_cons_self y b2) h1.symm
  | cons x a2 ih =>
      intro b m k ha hb hm hk h
      cases b with
      | nil =>
          exfalso
          simp only [List.cons_append, List.nil_append] at h
          rcases hk with rfl | ⟨t, rfl⟩
          · exact List.noConfusion h
          · injection h with h1 _
            exact ha x (List.mem_cons_self x a2) h1
      | cons y b2 =>
          simp only [List.cons_append] at h
          injection h with h1 h2
          subst h1
          obtain ⟨hab, hmk⟩ := ih b2 m k (fun c hc => ha c (List.mem_cons_of_mem x hc))
            (fun c hc => hb c (List.mem_cons_of_mem x hc)) hm hk h2
          exact ⟨by rw [hab], hmk⟩

/-- Unfolding of blocksData on a path component. -/
theorem blocksData_cons (q : Nat × Nat) (p : List (Nat × Nat)) :
    blocksData (q :: p) =
      '_' :: ((Nat.repr q.1).data ++ '_' :: ((Nat.repr q.2).data ++ blocksData p)) := by
  simp [blocksData, blockData]

/-- A block list is empty or starts with the separator. -/
theorem blocksData_shape (p : List (Nat × Nat)) :
    blocksData p = [] ∨ ∃ t, blocksData p = '_' :: t := by
  cases p with
  | nil => exact Or.inl rfl
  | cons q p => exact Or.inr ⟨_, blocksData_cons q p⟩

/-- Paths are recoverable from their character blocks. -/
theorem blocksData_inj : ∀ (p q : List (Nat × Nat)), blocksData p = blocksData q → p = q := by
  intro p
  induction p with
  | nil =>
      intro q h
      cases q with
      | nil => rfl
      | cons z q2 =>
          rw [blocksData_cons] at h
          simp [blocksData] at h
  | cons x p2 ih =>
      intro q h
      cases q with
      | nil =>
          rw [blocksData_cons] at h
          simp [blocksData] at h
      | cons y q2 =>
          rw [blocksData_cons, blocksData_cons] at h
          injection h with hhead h2
          obtain ⟨hL1, hrest⟩ := append_block_inj (Nat.repr x.1).data (Nat.repr y.1).data _ _
            (fun c hc => isDigit_ne_underscore (reprData_digits _ c hc))
            (fun c hc => isDigit_ne_underscore (reprData_digits _ c hc))
            (Or.inr ⟨_, rfl⟩) (Or.inr ⟨_, rfl⟩) h2
          injection hrest with hrhead hrest2
          obtain ⟨hL2, hblocks⟩ := append_block_inj (Nat.repr x.2).data (Nat.repr y.2).data _ _
            (fun c hc => isDigit_ne_underscore (reprData_digits _ c hc))
            (fun c hc => isDigit_ne_underscore (reprData_digits _ c hc))
            (blocksData_shape p2) (blocksData_shape q2) hrest2
          have hx1 : x.1 = y.1 := reprData_injective hL1
          have hx2 : x.2 = y.2 := reprData_injective hL2
          have hp : p2 = q2 := ih q2 hblocks
          obtain ⟨x1, x2⟩ := x
          obtain ⟨y1, y2⟩ := y
          simp_all

/-! ## Identifier paths -/

/-- One step of the identifier fold. -/
theorem idOfPath_cons (pid : String) (q : Nat × Nat) (p : List (Nat × Nat)) :
    idOfPath pid (q :: p) =
      idOfPath (pid ++ "_" ++ Nat.repr q.1 ++ "_" ++ Nat.repr q.2) p := rfl

/-- Character data of a path identifier: the parent id followed by the
path's blocks. -/
theorem idOfPath_data : ∀ (p : List (Nat × Nat)) (pid : String),
    (idOfPath pid p).data = pid.data ++ blocksData p := by
  intro p
  induction p with
  | nil => intro pid; simp [idOfPath, blocksData]
  | cons q p ih =>
      intro pid
      have hu : ("_" : String).data = ['_'] := rfl
      rw [idOfPath_cons, ih, blocksData_cons]
      simp [String.data_append, hu]

/-- Two paths with the same parent id and the same identifier are equal. -/
theorem idOfPath_inj {pid : String} {p q : List (Nat × Nat)}
    (h : idOfPath pid p = idOfPath pid q) : p = q := by
  have hd := congrArg String.data h
  rw [idOfPath_data, idOfPath_data] at hd
  exact blocksData_inj p q (List.append_cancel_left hd)

/-- A descendant identifier never equals the parent id itself. -/
theorem idOfPath_ne_parent {pid : String} {p : List (Nat × Nat)} (hp : p ≠ []) :
    idOfPath pid p ≠ pid := by
  intro h
  have hd := congrArg String.data h
  rw [idOfPath_data] at hd
  have hlen := congrArg List.length hd
  cases p with
  | nil => exact hp rfl
  | cons q p2 =>
      rw [blocksData_cons] at hlen
      simp at hlen

/-! ## Safe characters and generateSafeId -/

/-- Characters of a decimal numeral are safe. -/
theorem reprData_safe (n : Nat) : ∀ c ∈ (Nat.repr n).data, isSafeChar c = true :=
  fun c hc => isDigit_isSafeChar (reprData_digits n c hc)

/-- List form of generateSafeId fixing safe characters. -/
theorem map_safe_id : ∀ l : List Char, (∀ c ∈ l, isSafeChar c = true) →
    l.map (fun c => if c.isAlphanum || c = '_' then c else '_') = l := by
  intro l
  induction l with
  | nil => intro _; rfl
  | cons c l ih =>
      intro h
      have hc := h c (List.mem_cons_self c l)
      unfold isSafeChar at hc
      simp only [List.map_cons]
      rw [if_pos hc, ih (fun d hd => h d (List.mem_cons_of_mem c hd))]

/-- generateSafeId is the identity on strings of safe characters. -/
theorem generateSafeId_eq_self (s : String) (h : ∀ c ∈ s.data, isSafeChar c = true) :
    generateSafeId s = s := by
  obtain ⟨l⟩ := s
  exact congrArg String.mk (map_safe_id l h)

/-- Safety is preserved by string append. -/
theorem safe_append {s t : String} (hs : ∀ c ∈ s.data, isSafeChar c = true)
    (ht : ∀ c ∈ t.data, isSafeChar c = true) :
    ∀ c ∈ (s ++ t).data, isSafeChar c = true := by
  intro c hc
  rw [String.data_append] at hc
  rcases List.mem_append.mp hc with h | h
  · exact hs c h
  · exact ht c h

/-- The separator string is safe. -/
theorem underscore_safe : ∀ c ∈ ("_" : String).data, isSafeChar c = true := by decide

/-- The interpolated child id string consists of safe characters. -/
theorem childId_safe (pid : String) (lvl idx : Nat)
    (h : ∀ c ∈ pid.data, isSafeChar c = true) :
    ∀ c ∈ (pid ++ "_" ++ Nat.repr lvl ++ "_" ++ Nat.repr idx).data, isSafeChar c = true :=
  safe_append (safe_append (safe_append (safe_append h underscore_safe) (reprData_safe lvl))
    underscore_safe) (reprData_safe idx)

/-! ## Node identifiers of the emission -/

/-- nodeIdsOf distributes over append. -/
theorem nodeIdsOf_append (a b : List MermaidLine) :
    nodeIdsOf (a ++ b) = nodeIdsOf a ++ nodeIdsOf b :=
  List.filterMap_append a b _

/-- nodeIdsOf collects a node declaration. -/
theorem nodeIdsOf_cons_node (i lbl : String) (rest : List MermaidLine) :
    nodeIdsOf (MermaidLine.node i lbl :: rest) = i :: nodeIdsOf rest := rfl

/-- nodeIdsOf skips an edge. -/
theorem nodeIdsOf_cons_edge (a b : String) (rest : List MermaidLine) :
    nodeIdsOf (MermaidLine.edge a b :: rest) = nodeIdsOf rest := rfl

/-- The identifiers emitted below a safe parent id are exactly the
identifiers of the emitted paths. -/
theorem processChildren_ids : ∀ (cs : List MindmapNode) (pid : String) (lvl idx : Nat),
    (∀ c ∈ pid.data, isSafeChar c = true) →
    nodeIdsOf (processChildren cs pid lvl idx) =
      (pathsOfList cs lvl idx).map (idOfPath pid) := by
  intro cs pid lvl idx
  induction cs, pid, lvl, idx using processChildren.induct with
  | case1 pid lvl idx => intro _; simp [processChildren, pathsOfList, nodeIdsOf]
  | case2 name children rest pid lvl idx ih1 ih2 =>
      intro hsafe
      by_cases hname : name = ""
      · simp only [processChildren, pathsOfList, if_pos hname, List.nil_append]
        exact ih2 hsafe
      · have hchild := childId_safe pid lvl idx hsafe
        have hgen : generateSafeId (pid ++ "_" ++ Nat.repr lvl ++ "_" ++ Nat.repr idx) =
            pid ++ "_" ++ Nat.repr lvl ++ "_" ++ Nat.repr idx :=
          generateSafeId_eq_self _ hchild
        have hid1 : idOfPath pid [(lvl, idx)] =
            pid ++ "_" ++ Nat.repr lvl ++ "_" ++ Nat.repr idx := rfl
        have ih1x := ih1
        simp only [hgen] at ih1x
        simp only [processChildren, pathsOfList, if_neg hname, hgen]
        have hmap : List.map (idOfPath pid ∘ fun p => (lvl, idx) :: p)
              (pathsOfList children (lvl + 1) 0) =
            List.map (idOfPath (pid ++ "_" ++ Nat.repr lvl ++ "_" ++ Nat.repr idx))
              (pathsOfList children (lvl + 1) 0) := by
          apply List.map_congr_left
          intro p _
          exact idOfPath_cons pid (lvl, idx) p
        rw [List.cons_append, List.cons_append, nodeIdsOf_cons_node, nodeIdsOf_cons_edge,
          nodeIdsOf_append, ih1x hchild, ih2 hsafe,
          List.cons_append, List.map_cons, List.map_append, List.map_map, hmap, hid1]

/-! ## Paths are distinct -/

/-- Every emitted path starts at the current level with an index at least
the current one. -/
theorem pathsOfList_shape : ∀ (cs : List MindmapNode) (lvl idx : Nat)
    (p : List (Nat × Nat)), p ∈ pathsOfList cs lvl idx →
    ∃ j t, idx ≤ j ∧ p = (lvl, j) :: t := by
  intro cs lvl idx
  induction cs, lvl, idx using pathsOfList.induct with
  | case1 lvl idx => intro p hp; simp [pathsOfList] at hp
  | case2 name children rest lvl idx ih1 ih2 =>
      intro p hp
      by_cases hname : name = ""
      · simp only [pathsOfList, if_pos hname, List.nil_append] at hp
        obtain ⟨j, t, hj, rfl⟩ := ih2 p hp
        exact ⟨j, t, by omega, rfl⟩
      · simp only [pathsOfList, if_neg hname, List.cons_append, List.mem_cons,
          List.mem_append] at hp
        rcases hp with rfl | hp | hp
        · exact ⟨idx, [], Nat.le_refl idx, rfl⟩
        · rcases List.mem_map.mp hp with ⟨p2, _, rfl⟩
          exact ⟨idx, p2, Nat.le_refl idx, rfl⟩
        · obtain ⟨j, t, hj, rfl⟩ := ih2 _ hp
          exact ⟨j, t, by omega, rfl⟩

/-- No path is emitted twice. -/
theorem pathsOfList_nodup : ∀ (cs : List MindmapNode) (lvl idx : Nat),
    (pathsOfList cs lvl idx).Nodup := by
  intro cs lvl idx
  induction cs, lvl, idx using pathsOfList.induct with
  | case1 lvl idx => simp [pathsOfList]
  | case2 name children rest lvl idx ih1 ih2 =>
      by_cases hname : name = ""
      · simp only [pathsOfList, if_pos hname, List.nil_append]
        exact ih2
      · simp only [pathsOfList, if_neg hname, List.cons_append]
        refine List.nodup_cons.mpr ⟨?_, ?_⟩
        · intro hmem
          rcases List.mem_append.mp hmem with h | h
          · rcases List.mem_map.mp h with ⟨p2, hp2, heq⟩
            have hp2nil : p2 = [] := by
              have := congrArg List.tail heq
              simpa using this
            subst hp2nil
            obtain ⟨j, t, hj, hshape⟩ := pathsOfList_shape children (lvl + 1) 0 [] hp2
            exact List.noConfusion hshape
          · obtain ⟨j, t, hj, hshape⟩ := pathsOfList_shape rest lvl (idx + 1) _ h
            injection hshape with h1 h2
            have hidx : idx = j := congrArg Prod.snd h1
            omega
        · refine List.Nodup.append ?_ ih2 ?_
          · refine List.Nodup.map ?_ ih1
            intro p q hpq
            have := congrArg List.tail hpq
            simpa using this
          · intro p hp1 hp2
            rcases List.mem_map.mp hp1 with ⟨p3, _, rfl⟩
            obtain ⟨j, t, hj, hshape⟩ := pathsOfList_shape rest lvl (idx + 1) _ hp2
            injection hshape with h1 h2
            have hidx : idx = j := congrArg Prod.snd h1
            omega

/-- Collision-freeness of all emitted identifiers, the root included. -/
theorem mermaidIds_nodup (d : MindmapData) : (nodeIdsOf (mermaidLinesOf d)).Nodup := by
  unfold mermaidLinesOf
  by_cases h : d.mindmap.children.isEmpty
  · rw [if_pos h]
    simp [nodeIdsOf]
  · rw [if_neg h]
    have hsafe : ∀ c ∈ ("root" : String).data, isSafeChar c = true := by decide
    rw [nodeIdsOf_cons_node, processChildren_ids _ _ _ _ hsafe]
    refine List.nodup_cons.mpr ⟨?_, ?_⟩
    · intro hmem
      rcases List.mem_map.mp hmem with ⟨p, hp, heq⟩
      obtain ⟨j, t, hj, rfl⟩ := pathsOfList_shape _ _ _ p hp
      exact idOfPath_ne_parent (by simp) heq
    · exact List.Nodup.map (fun p q hpq => idOfPath_inj hpq) (pathsOfList_nodup _ _ _)

/-! ## Edge and node counts -/

/-- edgesOf distributes over append. -/
theorem edgesOf_append (a b : List MermaidLine) :
    edgesOf (a ++ b) = edgesOf a ++ edgesOf b :=
  List.filterMap_append a b _

/-- edgesOf skips a node declaration. -/
theorem edgesOf_cons_node (i lbl : String) (rest : List MermaidLine) :
    edgesOf (MermaidLine.node i lbl :: rest) = edgesOf rest := rfl

/-- edgesOf collects an edge. -/
theorem edgesOf_cons_edge (a b : String) (rest : List MermaidLine) :
    edgesOf (MermaidLine.edge a b :: rest) = (a, b) :: edgesOf rest := rfl

/-- Below the root, each emitted node declaration comes with exactly one
emitted edge. -/
theorem processChildren_counts : ∀ (cs : List MindmapNode) (pid : String) (lvl idx : Nat),
    (edgesOf (processChildren cs pid lvl idx)).length =
      (nodeIdsOf (processChildren cs pid lvl idx)).length := by
  intro cs pid lvl idx
  induction cs, pid, lvl, idx using processChildren.induct with
  | case1 pid lvl idx => simp [processChildren, nodeIdsOf, edgesOf]
  | case2 name children rest pid lvl idx ih1 ih2 =>
      by_cases hname : name = ""
      · simp only [processChildren, if_pos hname, List.nil_append]
        exact ih2
      · have ih1x : (edgesOf (processChildren children
              (generateSafeId (pid ++ "_" ++ Nat.repr lvl ++ "_" ++ Nat.repr idx))
              (lvl + 1) 0)).length =
            (nodeIdsOf (processChildren children
              (generateSafeId (pid ++ "_" ++ Nat.repr lvl ++ "_" ++ Nat.repr idx))
              (lvl + 1) 0)).length := ih1
        simp only [processChildren, if_neg hname, List.cons_append]
        rw [nodeIdsOf_cons_node, nodeIdsOf_cons_edge, nodeIdsOf_append,
          edgesOf_cons_node, edgesOf_cons_edge, edgesOf_append]
        simp only [List.length_cons, List.length_append, ih1x, ih2]

/-! ## Labels -/

/-- Every sanitized label is at most 50 characters and consists only of
word characters, whitespace, hyphens and underscores. -/
theorem sanitizeNodeName_ok (nm : String) :
    (sanitizeNodeName nm).data.length ≤ 50 ∧
    ∀ c ∈ (sanitizeNodeName nm).data, isKeptChar c = true := by
  unfold sanitizeNodeName
  by_cases h : nm = ""
  · rw [if_pos h]
    exact ⟨by decide, by decide⟩
  · rw [if_neg h]
    constructor
    · exact List.length_take_le 50 _
    · intro c hc
      have h1 : c ∈ jsTrimList
          ((nm.data.filter (fun c => ¬ isBracketChar c)).filter isKeptChar) :=
        List.Sublist.mem hc (List.take_sublist 50 _)
      unfold jsTrimList at h1
      rw [List.mem_reverse] at h1
      have h2 := List.Sublist.mem h1 (List.dropWhile_sublist _)
      rw [List.mem_reverse] at h2
      have h3 := List.Sublist.mem h2 (List.dropWhile_sublist _)
      exact List.of_mem_filter h3

/-- Every node label emitted below the root is a sanitized source name. -/
theorem processChildren_labels : ∀ (cs : List MindmapNode) (pid : String) (lvl idx : Nat)
    (i lbl : String), MermaidLine.node i lbl ∈ processChildren cs pid lvl idx →
    ∃ nm, lbl = sanitizeNodeName nm := by
  intro cs pid lvl idx
  induction cs, pid, lvl, idx using processChildren.induct with
  | case1 pid lvl idx => intro i lbl h; simp [processChildren] at h
  | case2 name children rest pid lvl idx ih1 ih2 =>
      intro i lbl h
      by_cases hname : name = ""
      · simp only [processChildren, if_pos hname, List.nil_append] at h
        exact ih2 i lbl h
      · simp only [processChildren, if_neg hname, List.cons_append, List.mem_cons,
          List.mem_append] at h
        rcases h with h | h | h | h
        · injection h with h1 h2
          exact ⟨name, h2⟩
        · exact MermaidLine.noConfusion h
        · exact ih1 i lbl h
        · exact ih2 i lbl h

/-- Labels of the full emission, root and placeholder included. -/
theorem mermaidLabels_ok (d : MindmapData) : ∀ i lbl,
    MermaidLine.node i lbl ∈ mermaidLinesOf d →
    lbl.data.length ≤ 50 ∧ ∀ c ∈ lbl.data, isKeptChar c = true := by
  intro i lbl h
  unfold mermaidLinesOf at h
  by_cases he : d.mindmap.children.isEmpty
  · rw [if_pos he] at h
    rcases List.mem_singleton.mp h with heq
    injection heq with h1 h2
    subst h2
    exact ⟨by decide, by decide⟩
  · rw [if_neg he] at h
    rcases List.mem_cons.mp h with heq | hmem
    · injection heq with h1 h2
      subst h2
      exact sanitizeNodeName_ok d.topic
    · obtain ⟨nm, rfl⟩ := processChildren_labels _ _ _ _ i lbl hmem
      exact sanitizeNodeName_ok nm

/-! ## C8: Mermaid generation -/

/-- C8: for every mindmap tree, a root without children produces exactly
the placeholder node and no edges; every emitted node label is sanitized
(at most 50 characters, only word characters, whitespace, hyphens and
underscores); all emitted identifiers, the root included, are pairwise
distinct; and the number of emitted edges is the number of emitted nodes
minus one.  Both exported converters emit these same lines. -/
theorem c8_mermaid_generation (d : MindmapData) :
    (d.mindmap.children = [] →
      mermaidLinesOf d = [MermaidLine.node "empty" "No data available"] ∧
      edgesOf (mermaidLinesOf d) = []) ∧
    (∀ i lbl, MermaidLine.node i lbl ∈ mermaidLinesOf d →
      lbl.data.length ≤ 50 ∧ ∀ c ∈ lbl.data, isKeptChar c = true) ∧
    (nodeIdsOf (mermaidLinesOf d)).Nodup ∧
    (edgesOf (mermaidLinesOf d)).length = (nodeIdsOf (mermaidLinesOf d)).length - 1 := by
  refine ⟨?_, mermaidLabels_ok d, mermaidIds_nodup d, ?_⟩
  · intro h
    have he : d.mindmap.children.isEmpty = true := by simp [h]
    unfold mermaidLinesOf
    rw [if_pos he]
    exact ⟨rfl, rfl⟩
  · unfold mermaidLinesOf
    by_cases he : d.mindmap.children.isEmpty
    · rw [if_pos he]
      rfl
    · rw [if_neg he]
      rw [edgesOf_cons_node, nodeIdsOf_cons_node, processChildren_counts]
      simp

/-- C8 witness: the theorem applied to a childless root (placeholder
emission) and to a topic containing forbidden characters (sanitized root
label). -/
theorem c8_witness :
    mermaidLinesOf ⟨"T", MindmapNode.mk "r" []⟩ =
      [MermaidLine.node "empty" "No data available"] ∧
    ((sanitizeNodeName "Top[ic]!").data.length ≤ 50 ∧
      ∀ c ∈ (sanitizeNodeName "Top[ic]!").data, isKeptChar c = true) := by
  constructor
  · exact ((c8_mermaid_generation ⟨"T", MindmapNode.mk "r" []⟩).1 rfl).1
  · have hroot : MermaidLine.node "root" (sanitizeNodeName "Top[ic]!") ∈
        mermaidLinesOf ⟨"Top[ic]!", MindmapNode.mk "r" [MindmapNode.mk "Child" []]⟩ := by
      unfold mermaidLinesOf
      rw [if_neg (by decide)]
      exact List.mem_cons_self _ _
    exact (c8_mermaid_generation
      ⟨"Top[ic]!", MindmapNode.mk "r" [MindmapNode.mk "Child" []]⟩).2.1
      "root" (sanitizeNodeName "Top[ic]!") hroot

/-! ## C10: unnamed nodes are skipped with their subtrees -/

/-- C10: both Mermaid generators omit a child whose name is empty
together with its entire subtree — the emission of a children list
beginning with an unnamed node (whatever its subtree) equals the emission
of the remaining siblings alone, which still consume the skipped index;
at the root level the generators therefore emit the root node followed by
the remaining siblings' emission. -/
theorem c10_unnamed_skipped :
    (∀ (cs rest : List MindmapNode) (pid : String) (lvl idx : Nat),
      processChildren (MindmapNode.mk "" cs :: rest) pid lvl idx =
        processChildren rest pid lvl (idx + 1)) ∧
    (∀ (topic rootName : String) (cs rest : List MindmapNode),
      mermaidLinesOf ⟨topic, MindmapNode.mk rootName (MindmapNode.mk "" cs :: rest)⟩ =
        MermaidLine.node "root" (sanitizeNodeName topic) ::
          processChildren rest "root" 0 1) := by
  constructor
  · intro cs rest pid lvl idx
    simp [processChildren]
  · intro topic rootName cs rest
    unfold mermaidLinesOf
    rw [if_neg (by simp [MindmapNode.children])]
    change MermaidLine.node "root" (sanitizeNodeName topic) ::
        processChildren (MindmapNode.mk "" cs :: rest) "root" 0 0 = _
    rw [show processChildren (MindmapNode.mk "" cs :: rest) "root" 0 0 =
        processChildren rest "root" 0 1 from by simp [processChildren]]

end Learnable
